import Mathlib

/-!
Verification development for the typedi dependency-injection library.

The embedding mirrors two modules of the package:

* `typedi/resolution.py` — the descriptor algebra (`BaseType` and its
  subclasses) with `contains`, `accepts_resolved_object`,
  `iterate_terminal_resolvable_types`, `__eq__`, `__hash__` and `type_of`.
* `typedi/container.py` — the container engine: `MetaType` descriptors,
  `python_type_to_meta`, `CachedStorage`, `InstanceResolver`,
  `filter_instances_of_terminal_type`, and the three instance providers
  (`ConstInstanceProvider`, `FactoryInstanceProvider`,
  `SingletonInstanceProvider`) including the recursion guard and the
  uninitialized `ObjectProxy` used for cycle breaking.

Host-language classes are abstracted by a type `κ` of class identities
together with a method-resolution-order function; `issubclass(a, b)` is
membership of `b` in `a.__mro__`, and `isinstance` goes through the
dynamic class of a value.  Python exceptions that the engine itself
raises and catches (`ResolutionError`) are modeled with `Except Unit`.
-/

namespace Typedi

/-- Host class-system data: the `__mro__` of each class (the class itself
first, the universal root `object` last) and the distinguished classes of
the built-in values appearing in the embedding (`type(None)`, `list`,
`tuple`, and `ObjectProxy`). -/
structure ClassSys (κ : Type) where
  mro : κ → List κ
  noneCls : κ
  listCls : κ
  tupleCls : κ
  proxyCls : κ

/-- Python runtime values relevant to the engine: class instances (with an
identity and a list of constructor-argument fields), `None`, `ObjectProxy`
instances (referencing a slot in the proxy heap of the engine state),
lists and tuples. -/
inductive Value (κ : Type) where
  | obj (cls : κ) (oid : Nat) (fields : List (Value κ))
  | vnone
  | proxy (pid : Nat)
  | vlist (items : List (Value κ))
  | vtuple (items : List (Value κ))

/-- Dynamic class of a value: `type(obj)`. -/
def valueClass {κ : Type} (sys : ClassSys κ) : Value κ → κ
  | .obj c _ _ => c
  | .vnone => sys.noneCls
  | .proxy _ => sys.proxyCls
  | .vlist _ => sys.listCls
  | .vtuple _ => sys.tupleCls

/-- Model of `issubclass(sub, sup)`: `sup` occurs in `sub.__mro__`. -/
def pyIssubclass {κ : Type} [DecidableEq κ] (sys : ClassSys κ) (sub sup : κ) : Bool :=
  decide (sup ∈ sys.mro sub)

/-- Model of `isinstance(v, c)` via the dynamic class of `v`. -/
def isinstanceB {κ : Type} [DecidableEq κ] (sys : ClassSys κ) (v : Value κ) (c : κ) : Bool :=
  pyIssubclass sys (valueClass sys v) c

/-! ## The descriptor algebra of `typedi/resolution.py`

`RType` mirrors the `BaseType` hierarchy: `ClassType`, `NoneType`,
`TypeOfType`, `UnionType`, `ListType`, `IterableType`, `TupleType` and
`AnyType`.  `ProtocolType` (guarded by a Python-version check in the
source) is outside the scope of the verified properties and is omitted. -/
inductive RType (κ : Type) where
  | classT (c : κ)
  | noneT
  | typeOf (t : RType κ)
  | union (ts : List (RType κ))
  | listT (t : RType κ)
  | iterableT (t : RType κ)
  | tupleT (args : List (RType κ))
  | anyT

mutual

/-- `BaseType.contains` of `resolution.py`.  `UnionType.contains` raises
`NotImplementedError` when the other descriptor is also a union; a raise
is modeled as `Except.error ()`.  `TupleType.contains` checks pointwise
containment over `zip(self.args, other.args)` — `zip` stops at the
shorter argument list. -/
def containsE {κ : Type} [DecidableEq κ] (sys : ClassSys κ) : RType κ → RType κ → Except Unit Bool
  | .classT c, o =>
    .ok (match o with | .classT c' => pyIssubclass sys c' c | _ => false)
  | .noneT, o => .ok (match o with | .noneT => true | _ => false)
  | .typeOf t, o =>
    match o with
    | .typeOf t' => containsE sys t t'
    | _ => .ok false
  | .union ts, o =>
    match o with
    | .union _ => .error ()
    | _ => containsAnyE sys ts o
  | .listT t, o =>
    match o with
    | .listT t' => containsE sys t t'
    | _ => .ok false
  | .iterableT t, o =>
    match o with
    | .iterableT t' => containsE sys t t'
    | .listT t' => containsE sys t t'
    | _ => .ok false
  | .tupleT args, o =>
    match o with
    | .tupleT args' => containsZipE sys args args'
    | _ => .ok false
  | .anyT, _ => .ok true

/-- `any(t.contains(other) for t in self.types)`: short-circuits on the
first `True`; a raise inside the generator propagates. -/
def containsAnyE {κ : Type} [DecidableEq κ] (sys : ClassSys κ) :
    List (RType κ) → RType κ → Except Unit Bool
  | [], _ => .ok false
  | t :: rest, o =>
    match containsE sys t o with
    | .error e => .error e
    | .ok true => .ok true
    | .ok false => containsAnyE sys rest o

/-- `all(a1.contains(a2) for (a1, a2) in zip(...))`: short-circuits on the
first `False`; `zip` truncates at the shorter list. -/
def containsZipE {κ : Type} [DecidableEq κ] (sys : ClassSys κ) :
    List (RType κ) → List (RType κ) → Except Unit Bool
  | a :: ra, b :: rb =>
    match containsE sys a b with
    | .error e => .error e
    | .ok false => .ok false
    | .ok true => containsZipE sys ra rb
  | _, _ => .ok true

end

mutual

/-- `BaseType.accepts_resolved_object`.  For `ClassType` the source first
checks `type(obj) == ObjectProxy` and returns `True` for any proxy.
`TypeOfType.accepts_resolved_object` converts the object with `as_type`,
which raises `TypeError` (returning `False`) on every value of the
embedded value universe, since host type objects are not part of it. -/
def acceptsResolvedObject {κ : Type} [DecidableEq κ] (sys : ClassSys κ) :
    RType κ → Value κ → Bool
  | .classT c, v =>
    match v with
    | .proxy _ => true
    | _ => isinstanceB sys v c
  | .noneT, v => match v with | .vnone => true | _ => false
  | .typeOf _, _ => false
  | .union ts, v => acceptsAny sys ts v
  | .listT t, v => acceptsResolvedObject sys t v
  | .iterableT t, v => acceptsResolvedObject sys t v
  | .tupleT args, v =>
    match v with
    | .vtuple items => decide (items.length = args.length) && acceptsZip sys args items
    | _ => false
  | .anyT, _ => true

/-- Membership check of `UnionType.accepts_resolved_object`. -/
def acceptsAny {κ : Type} [DecidableEq κ] (sys : ClassSys κ) :
    List (RType κ) → Value κ → Bool
  | [], _ => false
  | t :: rest, v => acceptsResolvedObject sys t v || acceptsAny sys rest v

/-- Pointwise check of `TupleType.accepts_resolved_object` (run after the
arity test, so both lists have equal length at call sites). -/
def acceptsZip {κ : Type} [DecidableEq κ] (sys : ClassSys κ) :
    List (RType κ) → List (Value κ) → Bool
  | a :: ra, v :: rv => acceptsResolvedObject sys a v && acceptsZip sys ra rv
  | _, _ => true

end

mutual

/-- `BaseType.iterate_terminal_resolvable_types`.  A `TupleType` yields
itself followed by the terminals of each component; a `UnionType` yields
the terminals of each member; `ListType`/`IterableType` delegate to the
element descriptor; every other variant yields itself. -/
def iterateTerminalResolvableTypes {κ : Type} : RType κ → List (RType κ)
  | .classT c => [.classT c]
  | .noneT => [.noneT]
  | .typeOf t => [.typeOf t]
  | .anyT => [.anyT]
  | .union ts => terminalsOfList ts
  | .listT t => iterateTerminalResolvableTypes t
  | .iterableT t => iterateTerminalResolvableTypes t
  | .tupleT args => .tupleT args :: terminalsOfList args

/-- Concatenated terminal forms of a list of descriptors. -/
def terminalsOfList {κ : Type} : List (RType κ) → List (RType κ)
  | [] => []
  | t :: rest => iterateTerminalResolvableTypes t ++ terminalsOfList rest

end

mutual

/-- Structural `__eq__` of the descriptor classes of `resolution.py`.
`UnionType.__eq__` compares `types_set`, the `set` built from the member
tuple, so union equality is extensional set equality of the members
(order- and multiplicity-insensitive); `TupleType.__eq__` compares the
member tuples pointwise, arity included. -/
def eqR {κ : Type} [DecidableEq κ] : RType κ → RType κ → Bool
  | .classT c, .classT c' => decide (c = c')
  | .noneT, .noneT => true
  | .typeOf t, .typeOf t' => eqR t t'
  | .union ts, .union ts' => subsetR ts ts' && subsetR ts' ts
  | .listT t, .listT t' => eqR t t'
  | .iterableT t, .iterableT t' => eqR t t'
  | .tupleT args, .tupleT args' => eqListR args args'
  | .anyT, .anyT => true
  | _, _ => false
termination_by a b => sizeOf a + sizeOf b
decreasing_by all_goals simp_wf; all_goals omega

/-- Membership of a descriptor in a list, by `eqR`. -/
def memR {κ : Type} [DecidableEq κ] : RType κ → List (RType κ) → Bool
  | _, [] => false
  | t, x :: xs => eqR t x || memR t xs
termination_by t l => sizeOf t + sizeOf l
decreasing_by all_goals simp_wf; all_goals omega

/-- Every element of the first list occurs (by `eqR`) in the second. -/
def subsetR {κ : Type} [DecidableEq κ] : List (RType κ) → List (RType κ) → Bool
  | [], _ => true
  | t :: ts, l => memR t l && subsetR ts l
termination_by ts l => sizeOf ts + sizeOf l
decreasing_by all_goals simp_wf; all_goals omega

/-- Tuple (sequence) equality of descriptor lists: equal length and
pointwise `eqR`. -/
def eqListR {κ : Type} [DecidableEq κ] : List (RType κ) → List (RType κ) → Bool
  | [], [] => true
  | a :: ra, b :: rb => eqR a b && eqListR ra rb
  | _, _ => false
termination_by a b => sizeOf a + sizeOf b
decreasing_by all_goals simp_wf; all_goals omega

end

/-- Hash mixing step; the numeric scheme is irrelevant to the verified
properties, which only concern whether hashing is defined at all. -/
def hmix (a b : Nat) : Nat := a * 1000003 + b + 1

mutual

/-- `__hash__` of the descriptor classes.  The result models CPython
definedness, not CPython's interpreter-specific hash values.  Two cases
raise `TypeError` and are modeled as `Except.error ()`:

* `UnionType.__hash__` evaluates `hash(("UnionType", self.types_set))`
  where `types_set` is a builtin `set` — tuple hashing hashes every
  member and the builtin `set` is unhashable, so the call raises;
* `IterableType` defines `__eq__` without `__hash__`, which sets
  `__hash__ = None` and makes its instances unhashable.

All remaining variants hash a tuple of a class tag and the (recursively
hashed) components, so a nested union makes them raise as well. -/
def hashE {κ : Type} (hc : κ → Nat) : RType κ → Except Unit Nat
  | .classT c => .ok (hmix 10 (hc c))
  | .noneT => .ok 11
  | .anyT => .ok 12
  | .typeOf t =>
    match hashE hc t with
    | .ok h => .ok (hmix 13 h)
    | .error e => .error e
  | .listT t =>
    match hashE hc t with
    | .ok h => .ok (hmix 14 h)
    | .error e => .error e
  | .iterableT _ => .error ()
  | .union _ => .error ()
  | .tupleT args =>
    match hashListE hc args with
    | .ok h => .ok (hmix 15 h)
    | .error e => .error e

/-- Combined hash of `TupleType.args` (a tuple of descriptors). -/
def hashListE {κ : Type} (hc : κ → Nat) : List (RType κ) → Except Unit Nat
  | [] => .ok 16
  | t :: rest =>
    match hashE hc t with
    | .error e => .error e
    | .ok h =>
      match hashListE hc rest with
      | .error e => .error e
      | .ok hr => .ok (hmix h hr)

end

/-- Set insertion used by `type_of` for list values (`types.add(...)`):
the element is added unless an `eqR`-equal one is present.  CPython set
iteration order is interpreter-defined; the model fixes first-insertion
order. -/
def addUniqR {κ : Type} [DecidableEq κ] (t : RType κ) (acc : List (RType κ)) : List (RType κ) :=
  if memR t acc then acc else acc ++ [t]

mutual

/-- `resolution.type_of`: the advertised descriptor of a concrete value.
A non-empty tuple maps to the `TupleType` of its components' descriptors;
an empty tuple/list to the bare `ClassType` of `tuple`/`list`; a
non-empty list to a `ListType` of the single element descriptor, or of
the `UnionType` of the distinct element descriptors; `None` to the
`NoneType` singleton; every other value to the `ClassType` of its
dynamic class (host type objects, handled by the `TypeOfType` branches of
the source, are outside the embedded value universe). -/
def typeOfV {κ : Type} [DecidableEq κ] (sys : ClassSys κ) : Value κ → RType κ
  | .vtuple [] => .classT sys.tupleCls
  | .vtuple (v :: rest) => .tupleT (typeOfV sys v :: typeOfVList sys rest)
  | .vlist [] => .classT sys.listCls
  | .vlist (v :: rest) =>
    match addUniqDistinct sys (v :: rest) [] with
    | [one] => .listT one
    | types => .listT (.union types)
  | .obj c _ _ => .classT c
  | .vnone => .noneT
  | .proxy _ => .classT sys.proxyCls

/-- Componentwise `type_of` over a list of values. -/
def typeOfVList {κ : Type} [DecidableEq κ] (sys : ClassSys κ) : List (Value κ) → List (RType κ)
  | [] => []
  | v :: rest => typeOfV sys v :: typeOfVList sys rest

/-- Accumulates the distinct element descriptors of a list value. -/
def addUniqDistinct {κ : Type} [DecidableEq κ] (sys : ClassSys κ) :
    List (Value κ) → List (RType κ) → List (RType κ)
  | [], acc => acc
  | v :: rest, acc => addUniqDistinct sys rest (addUniqR (typeOfV sys v) acc)

end

/-! ## The container engine of `typedi/container.py`

`container.py` carries its own descriptor hierarchy (`MetaType` with the
terminal subclasses `ClassType` and `NoneTerminalType`), an indexed
storage (`CachedStorage`), a resolver (`InstanceResolver` together with
`filter_instances_of_terminal_type`), and the three providers.
`GenericTerminalType` (produced only for generics that are neither
unions nor sequence/iterable forms) is outside the scope of the verified
properties and is omitted. -/

/-- Terminal descriptors of `container.py`: `ClassType` and
`NoneTerminalType`.  These are the keys of `CachedStorage.providers_index`.
`ClassType.__eq__`/`__hash__` compare the wrapped class;
`NoneTerminalType` is compared structurally here — the source leaves it
with identity equality, but the engine never reads the bucket stored
under a `NoneTerminalType` key (`NoneTerminalType` resolution short
circuits and never consults the storage), so the two conventions are
observationally equal. -/
inductive TermType (κ : Type) where
  | classT (c : κ)
  | noneT
deriving DecidableEq

/-- Composite descriptors of `container.py` (`MetaType` hierarchy). -/
inductive CMeta (κ : Type) where
  | term (t : TermType κ)
  | union (ts : List (CMeta κ))
  | listT (t : CMeta κ)
  | iterableT (t : CMeta κ)

/-- Host type expressions that `python_type_to_meta` can translate: plain
classes, `type(None)`, `Union[...]`, `List[...]`, `Tuple[...]` (origin
`tuple`, with at least one argument) and `Iterable[...]`. -/
inductive PyTypeExpr (κ : Type) where
  | cls (c : κ)
  | noneE
  | unionE (args : List (PyTypeExpr κ))
  | listE (a : PyTypeExpr κ)
  | tupleE (a : PyTypeExpr κ) (rest : List (PyTypeExpr κ))
  | iterableE (a : PyTypeExpr κ)

mutual

/-- `container.python_type_to_meta`.  For a subscripted generic the origin
is tested with `issubclass(origin, Sequence)` before
`issubclass(origin, Iterable)`; the builtin `tuple` origin of
`Tuple[...]` is a `Sequence`, so a tuple expression becomes
`ListType(python_type_to_meta(args[0]))` — only the first argument
survives. -/
def pythonTypeToMeta {κ : Type} : PyTypeExpr κ → CMeta κ
  | .cls c => .term (.classT c)
  | .noneE => .term .noneT
  | .unionE args => .union (pythonTypeToMetaList args)
  | .listE a => .listT (pythonTypeToMeta a)
  | .tupleE a _ => .listT (pythonTypeToMeta a)
  | .iterableE a => .iterableT (pythonTypeToMeta a)

/-- Memberwise translation of union arguments. -/
def pythonTypeToMetaList {κ : Type} : List (PyTypeExpr κ) → List (CMeta κ)
  | [] => []
  | a :: rest => pythonTypeToMeta a :: pythonTypeToMetaList rest

end

mutual

/-- `MetaType.iterate_possible_terminal_types`.
`ClassType` yields a `ClassType` for every entry of `self.type.__mro__[:-1]`
(every ancestor except the universal root `object`); `NoneTerminalType`
yields itself; a union concatenates its members' terminals; list and
iterable descriptors delegate to the element descriptor. -/
def iteratePossibleTerminalTypes {κ : Type} (sys : ClassSys κ) : CMeta κ → List (TermType κ)
  | .term (.classT c) => ((sys.mro c).dropLast).map .classT
  | .term .noneT => [.noneT]
  | .union ts => possibleTerminalsOfList sys ts
  | .listT t => iteratePossibleTerminalTypes sys t
  | .iterableT t => iteratePossibleTerminalTypes sys t

/-- Concatenated possible terminals of a list of descriptors. -/
def possibleTerminalsOfList {κ : Type} (sys : ClassSys κ) : List (CMeta κ) → List (TermType κ)
  | [] => []
  | t :: rest => iteratePossibleTerminalTypes sys t ++ possibleTerminalsOfList sys rest

end

/-- `TerminalType.type_check_object`.  `ClassType` first tests
`type(obj) == ObjectProxy` (exact class, accepting every proxy) and then
`isinstance(obj, self.type)`; `NoneTerminalType` tests `obj is None`. -/
def typeCheckObject {κ : Type} [DecidableEq κ] (sys : ClassSys κ) :
    TermType κ → Value κ → Bool
  | .classT c, v =>
    match v with
    | .proxy _ => true
    | _ => isinstanceB sys v c
  | .noneT, v => match v with | .vnone => true | _ => false

mutual

/-- `container.filter_instances_of_terminal_type`: a value that passes
`type_check_object` is yielded as-is; otherwise, a value with `__iter__`
(lists and tuples in the embedded universe) is flattened recursively;
anything else yields nothing. -/
def filterInstancesOfTerminalType {κ : Type} [DecidableEq κ] (sys : ClassSys κ)
    (t : TermType κ) : Value κ → List (Value κ)
  | .vlist items =>
    if typeCheckObject sys t (.vlist items) then [.vlist items]
    else filterInstancesList sys t items
  | .vtuple items =>
    if typeCheckObject sys t (.vtuple items) then [.vtuple items]
    else filterInstancesList sys t items
  | v => if typeCheckObject sys t v then [v] else []

/-- Flattening step of `filter_instances_of_terminal_type` over the items
of an iterable value. -/
def filterInstancesList {κ : Type} [DecidableEq κ] (sys : ClassSys κ)
    (t : TermType κ) : List (Value κ) → List (Value κ)
  | [] => []
  | v :: rest => filterInstancesOfTerminalType sys t v ++ filterInstancesList sys t rest

end

/-- A declared factory parameter, as recorded by
`FactoryInstanceProvider._build_annotations`: the annotation, the
`VAR_POSITIONAL` flag, the has-default flag, and (as part of modeling the
callable itself) the default value the callable would use when the
container leaves the parameter unresolved. -/
structure FParam (κ : Type) where
  annotation : PyTypeExpr κ
  isVarPositional : Bool
  hasDefault : Bool
  defaultVal : Value κ

/-- A factory callable: its recorded parameters, its declared return type
annotation, and its body, receiving the variadic positional arguments and
the keyword arguments (with defaults substituted for parameters the
container left unresolved). -/
structure FactorySpec (κ : Type) where
  params : List (FParam κ)
  retType : PyTypeExpr κ
  body : List (Value κ) → List (Value κ) → Value κ

/-- Provider variants: `ConstInstanceProvider`, `FactoryInstanceProvider`,
and `SingletonInstanceProvider` (which, through the registration API,
always wraps a `FactoryInstanceProvider`). -/
inductive ProvSpec (κ : Type) where
  | const (v : Value κ)
  | factory (fs : FactorySpec κ)
  | singleton (fs : FactorySpec κ)

/-- A registered provider together with its mutable cells: the singleton
memo `_instance` (initialized to `None`, the sentinel also used for the
emptiness test), the factory `_proxy_recursion_guard`, and a counter of
factory-body invocations (the observable side effect). -/
structure ProvEntry (κ : Type) where
  spec : ProvSpec κ
  memo : Value κ
  guard : Option Nat
  calls : Nat

/-- Fresh entry for a newly registered provider. -/
def newEntry {κ : Type} (spec : ProvSpec κ) : ProvEntry κ :=
  { spec := spec, memo := .vnone, guard := none, calls := 0 }

/-- Container state: the provider table (`CachedStorage` plus the mutable
provider cells) and the heap of `ObjectProxy` objects created by factory
providers (`none` = allocated by `ObjectProxy.__new__` but its
`__init__` not yet called). -/
structure CState (κ : Type) where
  nprovs : Nat
  provs : Nat → Option (ProvEntry κ)
  index : TermType κ → List Nat
  nproxies : Nat
  proxies : Nat → Option (Value κ)

/-- The state of a storage with no registrations. -/
def emptyState (κ : Type) : CState κ :=
  { nprovs := 0, provs := fun _ => none, index := fun _ => [],
    nproxies := 0, proxies := fun _ => none }

/-- Bucket updates of `CachedStorage.add`: the provider id is appended to
the bucket of each terminal in turn. -/
def addIndex {κ : Type} [DecidableEq κ] (ix : TermType κ → List Nat) :
    List (TermType κ) → Nat → (TermType κ → List Nat)
  | [], _ => ix
  | t :: rest, pid =>
    addIndex (fun t' => if t' = t then ix t' ++ [pid] else ix t') rest pid

/-- `InstanceProvider.get_type`: a const provider advertises
`ClassType(type(self._instance))`; factory and singleton providers
translate the declared return annotation with `python_type_to_meta`. -/
def provGetType {κ : Type} (sys : ClassSys κ) : ProvSpec κ → CMeta κ
  | .const v => .term (.classT (valueClass sys v))
  | .factory fs => pythonTypeToMeta fs.retType
  | .singleton fs => pythonTypeToMeta fs.retType

/-- `CachedStorage.add`: the provider is appended to the bucket of every
terminal produced by `iterate_possible_terminal_types` of its advertised
descriptor. -/
def addProvider {κ : Type} [DecidableEq κ] (sys : ClassSys κ) (st : CState κ)
    (spec : ProvSpec κ) : CState κ :=
  let pid := st.nprovs
  { st with
    nprovs := pid + 1,
    provs := fun n => if n = pid then some (newEntry spec) else st.provs n,
    index := addIndex st.index (iteratePossibleTerminalTypes sys (provGetType sys spec)) pid }

/-- `Container.register_instance`. -/
def registerInstance {κ : Type} [DecidableEq κ] (sys : ClassSys κ) (st : CState κ)
    (v : Value κ) : CState κ :=
  addProvider sys st (.const v)

/-- `Container.register_factory`. -/
def registerFactory {κ : Type} [DecidableEq κ] (sys : ClassSys κ) (st : CState κ)
    (fs : FactorySpec κ) : CState κ :=
  addProvider sys st (.factory fs)

/-- `Container.register_singleton_factory`. -/
def registerSingletonFactory {κ : Type} [DecidableEq κ] (sys : ClassSys κ) (st : CState κ)
    (fs : FactorySpec κ) : CState κ :=
  addProvider sys st (.singleton fs)

/-- `Container.__init__`: a fresh storage into which the container
registers itself as an instance. -/
def newContainer {κ : Type} [DecidableEq κ] (sys : ClassSys κ) (selfObj : Value κ) : CState κ :=
  registerInstance sys (emptyState κ) selfObj

/-- `CachedStorage.query`: the bucket of the terminal, newest first. -/
def queryPids {κ : Type} (st : CState κ) (t : TermType κ) : List Nat :=
  (st.index t).reverse

/-- Guard cell of a provider entry. -/
def getGuard {κ : Type} (st : CState κ) (pid : Nat) : Option Nat :=
  match st.provs pid with
  | some e => e.guard
  | none => none

/-- Replaces the guard cell of a provider entry. -/
def setGuard {κ : Type} (st : CState κ) (pid : Nat) (g : Option Nat) : CState κ :=
  { st with provs := fun n =>
      if n = pid then (st.provs n).map (fun e => { e with guard := g }) else st.provs n }

/-- Replaces the singleton memo cell of a provider entry. -/
def setMemo {κ : Type} (st : CState κ) (pid : Nat) (v : Value κ) : CState κ :=
  { st with provs := fun n =>
      if n = pid then (st.provs n).map (fun e => { e with memo := v }) else st.provs n }

/-- Increments the body-invocation counter of a provider entry. -/
def bumpCalls {κ : Type} (st : CState κ) (pid : Nat) : CState κ :=
  { st with provs := fun n =>
      if n = pid then (st.provs n).map (fun e => { e with calls := e.calls + 1 }) else st.provs n }

/-- Writes the backing value of a proxy heap slot (`ObjectProxy.__init__`
called on the uninitialized proxy). -/
def setProxy {κ : Type} (st : CState κ) (pxid : Nat) (v : Value κ) : CState κ :=
  { st with proxies := fun n => if n = pxid then some v else st.proxies n }

/-- Body-invocation counter of a provider entry (0 if absent). -/
def callsOf {κ : Type} (st : CState κ) (pid : Nat) : Nat :=
  match st.provs pid with
  | some e => e.calls
  | none => 0

/-- Singleton memo cell of a provider entry (`None` if absent). -/
def memoOf {κ : Type} (st : CState κ) (pid : Nat) : Value κ :=
  match st.provs pid with
  | some e => e.memo
  | none => .vnone

/-- Shorthand for the type of `InstanceProvider.get_instance` viewed as a
state transformer: provider id and state in, raised-or-returned value and
state out. -/
def GetInst (κ : Type) : Type :=
  Nat → CState κ → Except Unit (Value κ) × CState κ

/-- Loop of `InstanceResolver.resolve_single_instance` over the queried
providers: each provider's `get_instance` runs in turn (an exception it
raises propagates), its value is filtered against the terminal, and the
first filtered instance is returned; an empty sweep raises
`ResolutionError`.  Providers after the first match are never invoked
(the source iterates a generator and returns on the first yield). -/
def resolveTermGo {κ : Type} [DecidableEq κ] (sys : ClassSys κ) (g : GetInst κ)
    (t : TermType κ) : List Nat → CState κ → Except Unit (Value κ) × CState κ
  | [], st => (.error (), st)
  | pid :: rest, st =>
    match g pid st with
    | (.error e, st') => (.error e, st')
    | (.ok v, st') =>
      match filterInstancesOfTerminalType sys t v with
      | [] => resolveTermGo sys g t rest st'
      | item :: _ => (.ok item, st')

/-- `InstanceResolver.resolve_single_instance`. -/
def resolveSingleTermW {κ : Type} [DecidableEq κ] (sys : ClassSys κ) (g : GetInst κ)
    (t : TermType κ) (st : CState κ) : Except Unit (Value κ) × CState κ :=
  resolveTermGo sys g t (queryPids st t) st

/-- Loop of `InstanceResolver.iterate_instances`, fully drained: every
queried provider is invoked (newest first) and the filtered instances are
concatenated; a raise from any `get_instance` propagates. -/
def iterTermGo {κ : Type} [DecidableEq κ] (sys : ClassSys κ) (g : GetInst κ)
    (t : TermType κ) : List Nat → CState κ → Except Unit (List (Value κ)) × CState κ
  | [], st => (.ok [], st)
  | pid :: rest, st =>
    match g pid st with
    | (.error e, st') => (.error e, st')
    | (.ok v, st') =>
      match iterTermGo sys g t rest st' with
      | (.ok vs, st'') => (.ok (filterInstancesOfTerminalType sys t v ++ vs), st'')
      | (.error e, st'') => (.error e, st'')

/-- `InstanceResolver.iterate_instances` (drained to a list). -/
def iterAllTermW {κ : Type} [DecidableEq κ] (sys : ClassSys κ) (g : GetInst κ)
    (t : TermType κ) (st : CState κ) : Except Unit (List (Value κ)) × CState κ :=
  iterTermGo sys g t (queryPids st t) st

mutual

/-- `MetaType.resolve_single_instance` of each descriptor, over an
abstract `get_instance`:

* `ClassType` delegates to the resolver;
* `NoneTerminalType` returns `None` directly, never touching the storage;
* `UnionType` tries its members left to right, catching `ResolutionError`
  per member and raising only after all members failed;
* `ListType` returns the drained element iteration as a list;
* `IterableType` returns the element iteration — the source hands back
  the still-lazy generator; it is modeled drained, with the same
  contents. -/
def resolveMetaSingleW {κ : Type} [DecidableEq κ] (sys : ClassSys κ) (g : GetInst κ) :
    CMeta κ → CState κ → Except Unit (Value κ) × CState κ
  | .term (.classT c), st => resolveSingleTermW sys g (.classT c) st
  | .term .noneT, st => (.ok .vnone, st)
  | .union ts, st => resolveUnionGo sys g ts st
  | .listT t, st =>
    match iterMetaAllW sys g t st with
    | (.ok vs, st') => (.ok (.vlist vs), st')
    | (.error e, st') => (.error e, st')
  | .iterableT t, st =>
    match iterMetaAllW sys g t st with
    | (.ok vs, st') => (.ok (.vlist vs), st')
    | (.error e, st') => (.error e, st')

/-- Member loop of `UnionType.resolve_single_instance`: state changes made
by a failed member persist (Python has no rollback on exception). -/
def resolveUnionGo {κ : Type} [DecidableEq κ] (sys : ClassSys κ) (g : GetInst κ) :
    List (CMeta κ) → CState κ → Except Unit (Value κ) × CState κ
  | [], st => (.error (), st)
  | t :: rest, st =>
    match resolveMetaSingleW sys g t st with
    | (.ok v, st') => (.ok v, st')
    | (.error _, st') => resolveUnionGo sys g rest st'

/-- `MetaType.iterate_resolved_instances` of each descriptor (drained):
a union concatenates its members' iterations in order; `ListType` and
`IterableType` yield exactly one value, the drained element iteration as
a single list value. -/
def iterMetaAllW {κ : Type} [DecidableEq κ] (sys : ClassSys κ) (g : GetInst κ) :
    CMeta κ → CState κ → Except Unit (List (Value κ)) × CState κ
  | .term (.classT c), st => iterAllTermW sys g (.classT c) st
  | .term .noneT, st => (.ok [.vnone], st)
  | .union ts, st => iterUnionGo sys g ts st
  | .listT t, st =>
    match iterMetaAllW sys g t st with
    | (.ok vs, st') => (.ok [.vlist vs], st')
    | (.error e, st') => (.error e, st')
  | .iterableT t, st =>
    match iterMetaAllW sys g t st with
    | (.ok vs, st') => (.ok [.vlist vs], st')
    | (.error e, st') => (.error e, st')

/-- Member loop of `UnionType.iterate_resolved_instances`. -/
def iterUnionGo {κ : Type} [DecidableEq κ] (sys : ClassSys κ) (g : GetInst κ) :
    List (CMeta κ) → CState κ → Except Unit (List (Value κ)) × CState κ
  | [], st => (.ok [], st)
  | t :: rest, st =>
    match iterMetaAllW sys g t st with
    | (.error e, st') => (.error e, st')
    | (.ok vs, st') =>
      match iterUnionGo sys g rest st' with
      | (.ok vs', st'') => (.ok (vs ++ vs'), st'')
      | (.error e, st'') => (.error e, st'')

end

/-- Parameter loop of `FactoryInstanceProvider._get_instance`: each
recorded parameter annotation is resolved through the container
(`container.resolve` for an ordinary parameter,
`tuple(container.iter_all_instances(...))` for a `VAR_POSITIONAL` one);
on `ResolutionError` the parameter with a default is skipped (the
callable's own default fills in), otherwise the error re-raises.  The
accumulators mirror `args` (replaced by a variadic parameter) and
`kwargs` (appended in parameter order). -/
def buildArgs {κ : Type} [DecidableEq κ] (sys : ClassSys κ) (g : GetInst κ) :
    List (FParam κ) → List (Value κ) → List (Value κ) → CState κ →
      Except Unit (List (Value κ) × List (Value κ)) × CState κ
  | [], args, kwargs, st => (.ok (args, kwargs), st)
  | p :: rest, args, kwargs, st =>
    if p.isVarPositional then
      match iterMetaAllW sys g (pythonTypeToMeta p.annotation) st with
      | (.ok vs, st') => buildArgs sys g rest vs kwargs st'
      | (.error e, st') =>
        if p.hasDefault then buildArgs sys g rest args kwargs st'
        else (.error e, st')
    else
      match resolveMetaSingleW sys g (pythonTypeToMeta p.annotation) st with
      | (.ok v, st') => buildArgs sys g rest args (kwargs ++ [v]) st'
      | (.error e, st') =>
        if p.hasDefault then buildArgs sys g rest args (kwargs ++ [p.defaultVal]) st'
        else (.error e, st')

/-- `FactoryInstanceProvider.get_instance`.  A re-entrant call (the guard
holds a proxy) returns the uninitialized proxy immediately.  Otherwise a
fresh uninitialized proxy is allocated (`ObjectProxy.__new__`) and stored
in the guard; the parameters are resolved and the factory body invoked
(`_get_instance`); on success the proxy is initialized with the produced
instance and the instance returned; in all cases (`finally`) the guard is
cleared. -/
def runFactory {κ : Type} [DecidableEq κ] (sys : ClassSys κ) (g : GetInst κ)
    (pid : Nat) (fs : FactorySpec κ) (st : CState κ) : Except Unit (Value κ) × CState κ :=
  match getGuard st pid with
  | some pxid => (.ok (.proxy pxid), st)
  | none =>
    let pxid := st.nproxies
    let st1 := setGuard { st with nproxies := pxid + 1 } pid (some pxid)
    match buildArgs sys g fs.params [] [] st1 with
    | (.ok (args, kwargs), st2) =>
      let st3 := bumpCalls st2 pid
      let v := fs.body args kwargs
      (.ok v, setGuard (setProxy st3 pxid v) pid none)
    | (.error e, st2) => (.error e, setGuard st2 pid none)

/-- `InstanceProvider.get_instance`, dispatched on the provider variant,
with a recursion budget: the budget decreases only when a factory
re-enters the container to resolve its parameters, so any provider chain
of nesting depth below the budget runs exactly as in the source.  A const
provider returns its instance; a factory runs `runFactory`; a singleton
provider checks its memo cell against the `None` sentinel, delegates to
its wrapped factory when the cell is `None`, and stores the produced
value in the cell (storing `None` again if that is what was produced). -/
def getInstanceDepth {κ : Type} [DecidableEq κ] (sys : ClassSys κ) : Nat → GetInst κ
  | 0 => fun _ st => (.error (), st)
  | d + 1 => fun pid st =>
    match st.provs pid with
    | none => (.error (), st)
    | some e =>
      match e.spec with
      | .const v => (.ok v, st)
      | .factory fs => runFactory sys (getInstanceDepth sys d) pid fs st
      | .singleton fs =>
        match e.memo with
        | .vnone =>
          match runFactory sys (getInstanceDepth sys d) pid fs st with
          | (.ok v, st') => (.ok v, setMemo st' pid v)
          | (.error er, st') => (.error er, st')
        | v => (.ok v, st)

/-- `Container.resolve`: the query is translated by `python_type_to_meta`
and resolved as a single instance. -/
def containerResolve {κ : Type} [DecidableEq κ] (sys : ClassSys κ) (fuel : Nat)
    (q : PyTypeExpr κ) (st : CState κ) : Except Unit (Value κ) × CState κ :=
  resolveMetaSingleW sys (getInstanceDepth sys fuel) (pythonTypeToMeta q) st

/-- `Container.get_all_instances` (and the drained contents of
`Container.iter_all_instances`). -/
def containerGetAll {κ : Type} [DecidableEq κ] (sys : ClassSys κ) (fuel : Nat)
    (q : PyTypeExpr κ) (st : CState κ) : Except Unit (List (Value κ)) × CState κ :=
  iterMetaAllW sys (getInstanceDepth sys fuel) (pythonTypeToMeta q) st

/-! ## A concrete host class universe

Used for the concrete scenarios: the built-in classes required by
`ClassSys`, the container's own class, and the user classes of the test
scenarios (`A`, `B`, a `Parent`/`Child` pair, an `Unrelated` class and a
dependency class `P`).  Every class other than `object` and `Child`
derives directly from `object`; `Child` derives from `Parent`. -/
inductive PyCls where
  | objCls | noneCls | listCls | tupleCls | proxyCls | containerCls
  | clsA | clsB | clsParent | clsChild | clsUnrelated | clsP
deriving DecidableEq

/-- The `__mro__` of each class of the concrete universe. -/
def pyMro : PyCls → List PyCls
  | .objCls => [.objCls]
  | .clsChild => [.clsChild, .clsParent, .objCls]
  | c => [c, .objCls]

/-- The concrete class system. -/
def pySys : ClassSys PyCls :=
  { mro := pyMro, noneCls := .noneCls, listCls := .listCls,
    tupleCls := .tupleCls, proxyCls := .proxyCls }

/-- The container object registered by `Container.__init__`. -/
def contVal : Value PyCls := .obj .containerCls 0 []

/-- A fresh concrete container. -/
def freshC : CState PyCls := newContainer pySys contVal

/-- Number of occurrences of an element in a list (used to describe the
bucket appends performed by `CachedStorage.add`). -/
def occCount {α : Type} [DecidableEq α] (x : α) : List α → Nat
  | [] => 0
  | y :: rest => (if y = x then 1 else 0) + occCount x rest

/-- Sequentially registers a list of instances (`register_instance` called
once per element, in list order). -/
def registerAll {κ : Type} [DecidableEq κ] (sys : ClassSys κ) (st : CState κ) :
    List (Value κ) → CState κ
  | [] => st
  | v :: rest => registerAll sys (registerInstance sys st v) rest

/-- The terminal keys under which a const provider of a value of class `c`
is indexed: a `ClassType` for every ancestor in `c.__mro__[:-1]`. -/
def constTerminals {κ : Type} (sys : ClassSys κ) (c : κ) : List (TermType κ) :=
  ((sys.mro c).dropLast).map .classT

/-! ## Concrete scenarios -/

/-- An `A` instance. -/
def instA1 : Value PyCls := .obj .clsA 11 []

/-- A second `A` instance, registered after `instA1`. -/
def instA2 : Value PyCls := .obj .clsA 12 []

/-- A `B` instance. -/
def instB1 : Value PyCls := .obj .clsB 21 []

/-- Container with only a `B` instance registered. -/
def onlyBSt : CState PyCls := registerInstance pySys freshC instB1

/-- Two `Child` instances. -/
def childInst1 : Value PyCls := .obj .clsChild 31 []

/-- Second `Child` instance, registered after `childInst1`. -/
def childInst2 : Value PyCls := .obj .clsChild 32 []

/-- Factory `factory_of_a(dep: B) -> A`: builds an `A` whose field list is
its resolved keyword arguments. -/
def factOfA : FactorySpec PyCls :=
  { params := [{ annotation := .cls .clsB, isVarPositional := false,
                 hasDefault := false, defaultVal := .vnone }],
    retType := .cls .clsA,
    body := fun _ kwargs => .obj .clsA 100 kwargs }

/-- Factory `factory_of_b(dep: A) -> B`. -/
def factOfB : FactorySpec PyCls :=
  { params := [{ annotation := .cls .clsA, isVarPositional := false,
                 hasDefault := false, defaultVal := .vnone }],
    retType := .cls .clsB,
    body := fun _ kwargs => .obj .clsB 200 kwargs }

/-- Container with the two mutually dependent factories registered. -/
def cycleSt : CState PyCls := registerFactory pySys (registerFactory pySys freshC factOfA) factOfB

/-- The `A` instance produced by resolving `A` from `cycleSt`: its `dep`
is the produced `B` instance, whose own `dep` is the cycle-breaking
proxy allocated at heap slot 0. -/
def cycleA : Value PyCls := .obj .clsA 100 [.obj .clsB 200 [.proxy 0]]

/-- A side-effecting singleton factory annotated `-> Optional[A]` whose
body always returns `None` (a successful produce of the `None` value). -/
def noneFact : FactorySpec PyCls :=
  { params := [], retType := .unionE [.cls .clsA, .noneE], body := fun _ _ => .vnone }

/-- Container with only `noneFact` registered as a singleton factory
(provider id 1; id 0 is the container's self-registration). -/
def noneSingletonSt : CState PyCls := registerSingletonFactory pySys freshC noneFact

/-- The query `Optional[A]`. -/
def optAQuery : PyTypeExpr PyCls := .unionE [.cls .clsA, .noneE]

/-- A singleton factory `-> A` that needs an unresolvable dependency
`P` (no default): its first produce attempt fails before the body runs. -/
def needsPFact : FactorySpec PyCls :=
  { params := [{ annotation := .cls .clsP, isVarPositional := false,
                 hasDefault := false, defaultVal := .vnone }],
    retType := .cls .clsA,
    body := fun _ _ => .obj .clsA 41 [] }

/-- Container with only `needsPFact` registered as a singleton factory. -/
def needsPSt : CState PyCls := registerSingletonFactory pySys freshC needsPFact

/-- The `A` instance eventually produced by `needsPFact`. -/
def retryA : Value PyCls := .obj .clsA 41 []

/-- An `A` instance yielded by the generator factory. -/
def genA : Value PyCls := .obj .clsA 61 []

/-- A `B` instance yielded by the generator factory. -/
def genB : Value PyCls := .obj .clsB 62 []

/-- A factory annotated `-> Iterable[Union[A, B]]` whose body returns a
one-pass lazy sequence yielding `genA` then `genB` (the drained contents
of the generator). -/
def genFact : FactorySpec PyCls :=
  { params := [], retType := .iterableE (.unionE [.cls .clsA, .cls .clsB]),
    body := fun _ _ => .vlist [genA, genB] }

/-- Container with only `genFact` registered (provider id 1). -/
def genSt : CState PyCls := registerFactory pySys freshC genFact

/-- The collection query `List[Union[A, B]]`. -/
def listABQuery : PyTypeExpr PyCls := .listE (.unionE [.cls .clsA, .cls .clsB])

/-- Container in which the tuple `(genA, genB)` was registered with
`register_instance`. -/
def tupSt : CState PyCls := registerInstance pySys freshC (.vtuple [genA, genB])

/-! ## Supporting lemmas -/

theorem occCount_pos_of_mem {α : Type} [DecidableEq α] {x : α} :
    ∀ {l : List α}, x ∈ l → 0 < occCount x l := by
  intro l
  induction l with
  | nil => intro h; cases h
  | cons y rest ih =>
    intro h
    simp only [occCount]
    rcases List.mem_cons.mp h with h | h
    · subst h; simp
    · have := ih h; omega

theorem occCount_eq_zero_of_not_mem {α : Type} [DecidableEq α] {x : α} :
    ∀ {l : List α}, x ∉ l → occCount x l = 0 := by
  intro l
  induction l with
  | nil => intro _; rfl
  | cons y rest ih =>
    intro h
    have hy : y ≠ x := fun hh => h (hh ▸ List.mem_cons_self y rest)
    have hr : x ∉ rest := fun hh => h (List.mem_cons_of_mem _ hh)
    simp [occCount, hy, ih hr]

theorem addIndex_apply {κ : Type} [DecidableEq κ] :
    ∀ (terms : List (TermType κ)) (ix : TermType κ → List Nat) (pid : Nat) (t : TermType κ),
      addIndex ix terms pid t = ix t ++ List.replicate (occCount t terms) pid := by
  intro terms
  induction terms with
  | nil => intro ix pid t; simp [addIndex, occCount]
  | cons y rest ih =>
    intro ix pid t
    simp only [addIndex, occCount]
    rw [ih]
    by_cases h : t = y
    · subst h
      have h1 : (1 : Nat) + occCount t rest = occCount t rest + 1 := Nat.add_comm _ _
      simp [h1, List.replicate_succ]
    · have h' : ¬ (y = t) := fun hh => h hh.symm
      simp [h, h']

theorem registerInstance_index {κ : Type} [DecidableEq κ] (sys : ClassSys κ)
    (st : CState κ) (v : Value κ) (t : TermType κ) :
    (registerInstance sys st v).index t
      = st.index t ++ List.replicate (occCount t (constTerminals sys (valueClass sys v))) st.nprovs := by
  simp [registerInstance, addProvider, addIndex_apply, provGetType,
    iteratePossibleTerminalTypes, constTerminals]

theorem registerInstance_provs {κ : Type} [DecidableEq κ] (sys : ClassSys κ)
    (st : CState κ) (v : Value κ) (n : Nat) :
    (registerInstance sys st v).provs n
      = if n = st.nprovs then some (newEntry (.const v)) else st.provs n := rfl

theorem registerInstance_nprovs {κ : Type} [DecidableEq κ] (sys : ClassSys κ)
    (st : CState κ) (v : Value κ) :
    (registerInstance sys st v).nprovs = st.nprovs + 1 := rfl

theorem typeCheckObject_true_of_mro {κ : Type} [DecidableEq κ] (sys : ClassSys κ)
    {P : κ} {v : Value κ} (h : P ∈ sys.mro (valueClass sys v)) :
    typeCheckObject sys (.classT P) v = true := by
  cases v <;>
    simp only [valueClass] at h <;>
    simp [typeCheckObject, isinstanceB, pyIssubclass, valueClass, h]

theorem filterInstances_of_typeCheck {κ : Type} [DecidableEq κ] (sys : ClassSys κ)
    {t : TermType κ} {v : Value κ} (h : typeCheckObject sys t v = true) :
    filterInstancesOfTerminalType sys t v = [v] := by
  cases v <;> simp [filterInstancesOfTerminalType, h]

theorem getInstanceDepth_const {κ : Type} [DecidableEq κ] (sys : ClassSys κ)
    {f pid : Nat} {st : CState κ} {v : Value κ}
    (h : st.provs pid = some (newEntry (.const v))) :
    getInstanceDepth sys (f + 1) pid st = (.ok v, st) := by
  simp [getInstanceDepth, h, newEntry]

theorem resolveTermGo_replicate_head {κ : Type} [DecidableEq κ] (sys : ClassSys κ)
    (g : GetInst κ) (t : TermType κ) {pid : Nat} {st : CState κ} {b : Value κ} {k : Nat}
    (hk : 0 < k) (hg : g pid st = (.ok b, st))
    (hf : filterInstancesOfTerminalType sys t b = [b]) (rest : List Nat) :
    resolveTermGo sys g t (List.replicate k pid ++ rest) st = (.ok b, st) := by
  cases k with
  | zero => omega
  | succ k => simp [List.replicate_succ, resolveTermGo, hg, hf]

/-! ## Claim C1 — newest-registered-first override order -/

/-- C1.  For every container state and every class `T` with a well-formed
inheritance chain, after `register_instance(a)` followed by
`register_instance(b)` where both values have exact dynamic class `T`,
`resolve(T)` returns `b`: `CachedStorage.query` yields the candidate
providers in most-recently-registered-first order, so the later
registration shadows the earlier one. -/
theorem registry_newest_first_override {κ : Type} [DecidableEq κ] (sys : ClassSys κ)
    (st : CState κ) (a b : Value κ) (T : κ) (f : Nat)
    (_ha : valueClass sys a = T) (hb : valueClass sys b = T)
    (hT : T ∈ sys.mro T) (hTd : T ∈ (sys.mro T).dropLast) :
    (containerResolve sys (f + 1) (.cls T)
        (registerInstance sys (registerInstance sys st a) b)).1 = .ok b := by
  have htc : typeCheckObject sys (.classT T) b = true :=
    typeCheckObject_true_of_mro sys (by rw [hb]; exact hT)
  have hmem : TermType.classT T ∈ constTerminals sys (valueClass sys b) := by
    rw [hb]; exact List.mem_map_of_mem _ hTd
  have hkpos := occCount_pos_of_mem hmem
  set st₁ := registerInstance sys st a with hst₁
  have hprov : (registerInstance sys st₁ b).provs st₁.nprovs = some (newEntry (.const b)) := by
    rw [registerInstance_provs]; simp
  have hquery : queryPids (registerInstance sys st₁ b) (.classT T)
      = List.replicate (occCount (.classT T) (constTerminals sys (valueClass sys b))) st₁.nprovs
        ++ (st₁.index (.classT T)).reverse := by
    simp [queryPids, registerInstance_index, List.reverse_append]
  have hrun := resolveTermGo_replicate_head sys (getInstanceDepth sys (f + 1)) (.classT T)
    hkpos (getInstanceDepth_const sys hprov) (filterInstances_of_typeCheck sys htc)
    ((st₁.index (.classT T)).reverse)
  simp [containerResolve, pythonTypeToMeta, resolveMetaSingleW, resolveSingleTermW,
    hquery, hrun]

/-- Witness for C1: in the concrete universe, registering `instA1` then
`instA2` (both of exact class `A`) on a fresh container makes
`resolve(A)` return `instA2`. -/
theorem registry_newest_first_override_witness :
    (containerResolve pySys 1 (.cls .clsA)
        (registerInstance pySys (registerInstance pySys freshC instA1) instA2)).1
      = .ok instA2 :=
  registry_newest_first_override pySys freshC instA1 instA2 .clsA 0
    (by rfl) (by rfl) (by decide) (by decide)

/-! ## Claim C10 — class descriptors accept every proxy -/

/-- C10.  The runtime acceptance check of a class descriptor returns
`true` for every `ObjectProxy` value, whatever class the descriptor
wraps: `ClassType.accepts_resolved_object` in `resolution.py`,
`ClassType.type_check_object` in `container.py`, and consequently the
flattening filter of the resolver all let a cycle-breaking placeholder
pass, even for an unrelated class. -/
theorem class_descriptor_accepts_any_proxy {κ : Type} [DecidableEq κ]
    (sys : ClassSys κ) (c : κ) (pid : Nat) :
    acceptsResolvedObject sys (.classT c) (.proxy pid) = true
    ∧ typeCheckObject sys (.classT c) (.proxy pid) = true
    ∧ filterInstancesOfTerminalType sys (.classT c) (.proxy pid) = [.proxy pid] := by
  refine ⟨rfl, rfl, ?_⟩
  simp [filterInstancesOfTerminalType, typeCheckObject]

/-! ## Claim C6 — tuple containment and arity -/

/-- C6, counterexample.  `TupleType.contains` zips the argument lists
without comparing arities, so `Tuple[A, B].contains(Tuple[A])` evaluates
to `True` (the claim states it is `False` because the arities differ). -/
theorem tuple_contains_arity_counterexample :
    containsE pySys (.tupleT [.classT .clsA, .classT .clsB]) (.tupleT [.classT .clsA])
      = .ok true := by
  simp [containsE, containsZipE, pyIssubclass, pyMro, pySys]

/-- C6, amended.  `Tuple(D1..Dn).contains(other)` holds only if `other`
is a tuple descriptor whose components are pointwise contained over the
zipped common prefix; the arity is not compared, so
`Tuple(A, B).contains(Tuple(A))` is true whenever `A.contains(A)` holds,
while on equal arities containment is exactly the pointwise subclass
check, and a non-tuple descriptor is never contained. -/
theorem tuple_contains_zip_truncation {κ : Type} [DecidableEq κ] (sys : ClassSys κ)
    (a b : κ) (ha : a ∈ sys.mro a) :
    containsE sys (.tupleT [.classT a, .classT b]) (.tupleT [.classT a]) = .ok true
    ∧ (∀ a' b' : κ,
        containsE sys (.tupleT [.classT a, .classT b]) (.tupleT [.classT a', .classT b'])
          = .ok (pyIssubclass sys a' a && pyIssubclass sys b' b))
    ∧ containsE sys (.tupleT [.classT a, .classT b]) (.classT a) = .ok false := by
  refine ⟨?_, ?_, rfl⟩
  · simp [containsE, containsZipE, pyIssubclass, ha]
  · intro a' b'
    cases h1 : pyIssubclass sys a' a <;> cases h2 : pyIssubclass sys b' b <;>
      simp [containsE, containsZipE, h1, h2]

/-- Witness for C6's amended statement at concrete classes. -/
theorem tuple_contains_zip_truncation_witness :
    containsE pySys (.tupleT [.classT .clsA, .classT .clsB]) (.tupleT [.classT .clsA])
        = .ok true
    ∧ containsE pySys (.tupleT [.classT .clsA, .classT .clsB])
        (.tupleT [.classT .clsA, .classT .clsUnrelated]) = .ok false :=
  ⟨(tuple_contains_zip_truncation pySys .clsA .clsB (by decide)).1, by
    have h := (tuple_contains_zip_truncation pySys .clsA .clsB (by decide)).2.1
      PyCls.clsA PyCls.clsUnrelated
    simpa using h⟩

/-! ## Claim C7 — union equality and hashing -/

/-- C7.  `UnionType.__eq__` compares the member sets, so two unions with
permuted members are equal in both directions; `UnionType.__hash__`
however raises `TypeError` on every union, because it hashes a tuple
containing `types_set`, a builtin (unhashable) `set` — union descriptors
are not hashable at all. -/
theorem union_eq_insensitive_hash_raises :
    eqR (RType.union [.classT PyCls.clsA, .classT .clsB])
        (.union [.classT .clsB, .classT .clsA]) = true
    ∧ eqR (RType.union [.classT PyCls.clsB, .classT .clsA])
        (.union [.classT .clsA, .classT .clsB]) = true
    ∧ hashE (fun _ => 0) (RType.union [.classT PyCls.clsA, .classT .clsB]) = .error ()
    ∧ hashE (fun _ => 0) (RType.union [.classT PyCls.clsB, .classT .clsA]) = .error () := by
  refine ⟨?_, ?_, ?_, ?_⟩ <;> simp [eqR, subsetR, memR, hashE]

/-! ## Claim C9 — tuple registration and decomposition -/

/-- C9.  In `resolution.py` the claimed mechanism exists: the terminal
forms of a registered tuple are the tuple descriptor itself plus each
component's terminals, and `type_of` maps a tuple value to that tuple
descriptor.  The container engine of `container.py`, however, indexes a
registered tuple only under `ClassType(tuple)` (its
`ConstInstanceProvider.get_type` uses `type(value)`, not `type_of`) and
translates the query `Tuple[A, B]` to `ListType(A)`, so after
`register_instance((genA, genB))` the resolve of `A` raises and the
resolve of `Tuple[A, B]` returns an empty list instead of the registered
tuple — contradicting the claim and the repository's own tests. -/
theorem tuple_registration_decomposition_divergence :
    iterateTerminalResolvableTypes (RType.tupleT [.classT PyCls.clsA, .classT .clsB])
      = [.tupleT [.classT .clsA, .classT .clsB], .classT .clsA, .classT .clsB]
    ∧ typeOfV pySys (.vtuple [genA, genB]) = .tupleT [.classT .clsA, .classT .clsB]
    ∧ (containerResolve pySys 3 (.cls .clsA) tupSt).1 = .error ()
    ∧ (containerResolve pySys 3 (.tupleE (.cls .clsA) [.cls .clsB]) tupSt).1
        = .ok (.vlist []) := by
  refine ⟨rfl, rfl, rfl, rfl⟩

/-! ## Claim C4 — covariant collection queries -/

theorem iterTermGo_consts {κ : Type} [DecidableEq κ] (sys : ClassSys κ) (f : Nat)
    (t : TermType κ) :
    ∀ (pids : List Nat) (ws : List (Value κ)) (st : CState κ),
      List.Forall₂ (fun pid w => st.provs pid = some (newEntry (.const w))
          ∧ typeCheckObject sys t w = true) pids ws →
      iterTermGo sys (getInstanceDepth sys (f + 1)) t pids st = (.ok ws, st) := by
  intro pids
  induction pids with
  | nil =>
    intro ws st h
    cases h
    simp [iterTermGo]
  | cons pid rest ih =>
    intro ws st h
    cases h with
    | cons hpw hrest =>
      obtain ⟨hp, htc⟩ := hpw
      simp [iterTermGo, getInstanceDepth_const sys hp, ih _ _ hrest,
        filterInstances_of_typeCheck sys htc]

/-- The invariant carried through bulk registration: each provider id in
the queried bucket is a registered const provider of the corresponding
value, acceptable to the terminal. -/
def BucketInv {κ : Type} [DecidableEq κ] (sys : ClassSys κ) (P : κ) (st : CState κ)
    (ws : List (Value κ)) : Prop :=
  List.Forall₂ (fun pid w => pid < st.nprovs
      ∧ st.provs pid = some (newEntry (.const w))
      ∧ typeCheckObject sys (.classT P) w = true) (st.index (.classT P)) ws

theorem registerAll_iterTerm {κ : Type} [DecidableEq κ] (sys : ClassSys κ) (P C : κ)
    (f : Nat) (hocc : occCount (TermType.classT P) (constTerminals sys C) = 1) :
    ∀ (vs : List (Value κ)) (st : CState κ) (ws : List (Value κ)),
      (∀ v ∈ vs, valueClass sys v = C) →
      (∀ v ∈ vs, typeCheckObject sys (.classT P) v = true) →
      BucketInv sys P st ws →
      iterAllTermW sys (getInstanceDepth sys (f + 1)) (.classT P) (registerAll sys st vs)
        = (.ok (vs.reverse ++ ws.reverse), registerAll sys st vs) := by
  intro vs
  induction vs with
  | nil =>
    intro st ws _ _ hinv
    have hrev := List.forall₂_reverse_iff.mpr hinv
    have hrun := iterTermGo_consts sys f (.classT P) ((st.index (.classT P)).reverse)
      ws.reverse st
      (hrev.imp (fun _ _ hw => ⟨hw.2.1, hw.2.2⟩))
    simp [registerAll, iterAllTermW, queryPids, hrun]
  | cons v rest ih =>
    intro st ws hvs htcs hinv
    have hvc : valueClass sys v = C := hvs v (List.mem_cons_self _ _)
    have htc : typeCheckObject sys (.classT P) v = true := htcs v (List.mem_cons_self _ _)
    have hidx : (registerInstance sys st v).index (.classT P)
        = st.index (.classT P) ++ [st.nprovs] := by
      rw [registerInstance_index, hvc]
      rw [show occCount (TermType.classT P) (constTerminals sys C) = 1 from hocc]
      rfl
    have hinv' : BucketInv sys P (registerInstance sys st v) (ws ++ [v]) := by
      rw [BucketInv, hidx]
      refine List.rel_append (hinv.imp ?_) (List.Forall₂.cons ?_ List.Forall₂.nil)
      · rintro pid w ⟨hlt, hp, hw⟩
        refine ⟨Nat.lt_succ_of_lt hlt, ?_, hw⟩
        rw [registerInstance_provs, if_neg (Nat.ne_of_lt hlt)]
        exact hp
      · refine ⟨Nat.lt_succ_self _, ?_, htc⟩
        rw [registerInstance_provs, if_pos rfl]
    have hrest : iterAllTermW sys (getInstanceDepth sys (f + 1)) (.classT P)
          (registerAll sys (registerInstance sys st v) rest)
        = (.ok (rest.reverse ++ (ws ++ [v]).reverse),
           registerAll sys (registerInstance sys st v) rest) :=
      ih (registerInstance sys st v) (ws ++ [v])
        (fun w hw => hvs w (List.mem_cons_of_mem _ hw))
        (fun w hw => htcs w (List.mem_cons_of_mem _ hw)) hinv'
    have hr : registerAll sys st (v :: rest) = registerAll sys (registerInstance sys st v) rest :=
      rfl
    rw [hr, hrest]
    simp [List.reverse_append]

theorem registerAll_index_empty {κ : Type} [DecidableEq κ] (sys : ClassSys κ) {U C : κ}
    (hU : occCount (TermType.classT U) (constTerminals sys C) = 0) :
    ∀ (vs : List (Value κ)) (st : CState κ), (∀ v ∈ vs, valueClass sys v = C) →
      st.index (.classT U) = [] → (registerAll sys st vs).index (.classT U) = [] := by
  intro vs
  induction vs with
  | nil => intro st _ h; exact h
  | cons v rest ih =>
    intro st hvs hempty
    show (registerAll sys (registerInstance sys st v) rest).index (.classT U) = []
    refine ih _ (fun w hw => hvs w (List.mem_cons_of_mem _ hw)) ?_
    rw [registerInstance_index, hvs v (List.mem_cons_self _ _),
      show occCount (TermType.classT U) (constTerminals sys C) = 0 from hU, hempty]
    rfl

/-- C4.  After registering any number of instances of a class `Child`
derived from `Parent` (the `Child` producer is indexed under every
ancestor of `Child.__mro__[:-1]`, hence under `Parent`), resolving the
ordered-collection query `List[Parent]` returns exactly those instances,
newest first; resolving `List[Unrelated]` for a class with no matching
producers returns the empty collection and never raises. -/
theorem covariant_list_query_newest_first {κ : Type} [DecidableEq κ] (sys : ClassSys κ)
    (P C U : κ) (f : Nat) (st : CState κ) (vs : List (Value κ))
    (hocc : occCount (TermType.classT P) (constTerminals sys C) = 1)
    (hPm : P ∈ sys.mro C)
    (hUnot : TermType.classT U ∉ constTerminals sys C)
    (hvs : ∀ v ∈ vs, valueClass sys v = C)
    (hPempty : st.index (.classT P) = [])
    (hUempty : st.index (.classT U) = []) :
    (containerResolve sys (f + 1) (.listE (.cls P)) (registerAll sys st vs)).1
      = .ok (.vlist vs.reverse)
    ∧ (containerResolve sys (f + 1) (.listE (.cls U)) (registerAll sys st vs)).1
      = .ok (.vlist []) := by
  constructor
  · have htcs : ∀ v ∈ vs, typeCheckObject sys (.classT P) v = true := by
      intro v hv
      exact typeCheckObject_true_of_mro sys (by rw [hvs v hv]; exact hPm)
    have hinv : BucketInv sys P st [] := by
      rw [BucketInv, hPempty]
      exact List.Forall₂.nil
    have hiter := registerAll_iterTerm sys P C f hocc vs st [] hvs htcs hinv
    simp [containerResolve, pythonTypeToMeta, resolveMetaSingleW, iterMetaAllW, hiter]
  · have hbucket := registerAll_index_empty sys (occCount_eq_zero_of_not_mem hUnot)
      vs st hvs hUempty
    simp [containerResolve, pythonTypeToMeta, resolveMetaSingleW, iterMetaAllW,
      iterAllTermW, queryPids, hbucket, iterTermGo]

/-- Witness for C4: two `Child` instances registered on a fresh container
resolve under `List[Parent]` to the pair newest-first, while
`List[Unrelated]` resolves to the empty list. -/
theorem covariant_list_query_newest_first_witness :
    (containerResolve pySys 1 (.listE (.cls .clsParent))
        (registerAll pySys freshC [childInst1, childInst2])).1
      = .ok (.vlist [childInst2, childInst1])
    ∧ (containerResolve pySys 1 (.listE (.cls .clsUnrelated))
        (registerAll pySys freshC [childInst1, childInst2])).1
      = .ok (.vlist []) := by
  have h := covariant_list_query_newest_first pySys .clsParent .clsChild .clsUnrelated 0
    freshC [childInst1, childInst2] (by decide) (by decide) (by decide)
    (by intro v hv; fin_cases hv <;> rfl) (by decide) (by decide)
  exact ⟨h.1, h.2⟩

/-! ## Claim C5 — cycle-safe resolution through the proxy guard -/

/-- C5.  With the mutually dependent factories `factory_of_a(dep: B)` and
`factory_of_b(dep: A)` registered, `resolve(A)` completes for every
recursion budget of at least 3 (the re-entrant `get_instance` call hits
the recursion guard and returns the uninitialized proxy instead of
recursing further, so the required depth is bounded by the chain
`A → B → guard`): it returns an `A` whose `dep` is a `B` whose `dep` is
the placeholder proxy at heap slot 0, and after resolution that slot's
backing value is exactly the returned `A` instance — the placeholder
forwards to the original `A` identity. -/
theorem cycle_resolution_terminates_with_proxy (f : Nat) :
    (containerResolve pySys (f + 3) (.cls .clsA) cycleSt).1 = .ok cycleA
    ∧ (containerResolve pySys (f + 3) (.cls .clsA) cycleSt).2.proxies 0 = some cycleA :=
  ⟨rfl, rfl⟩

/-! ## Claim C8 — no drain-once caching of factory sequences -/

/-- C8.  A factory annotated `-> Iterable[Union[A, B]]` that returns a
lazy sequence is not drained and cached by the resolver of
`container.py`: the state has no per-resolution producer cache, so the
single query `List[Union[A, B]]` invokes the factory once for the `A`
sub-query and again for the `B` sub-query — two body invocations (two
fresh sequences) within one resolution, where the claim (and the
repository's own test on generator factories) requires exactly one. -/
theorem factory_sequence_reinvoked_not_cached :
    (containerResolve pySys 5 listABQuery genSt).1 = .ok (.vlist [genA, genB])
    ∧ callsOf (containerResolve pySys 5 listABQuery genSt).2 1 = 2 :=
  ⟨rfl, rfl⟩

/-! ## Claim C2 — singleton memoization -/

/-- C2, counterexample.  `SingletonInstanceProvider` uses `None` both as
its initial memo and as the emptiness test (`if self._instance is None`),
so a singleton factory annotated `-> Optional[A]` whose body successfully
produces `None` is never memoized: two `resolve(Optional[A])` calls both
succeed with the produced `None` value, yet the factory body runs twice —
the claim's "side effect is observed exactly once across any number of
resolve calls" fails at this input. -/
theorem singleton_none_not_memoized_counterexample :
    (containerResolve pySys 3 optAQuery noneSingletonSt).1 = .ok .vnone
    ∧ callsOf (containerResolve pySys 3 optAQuery noneSingletonSt).2 1 = 1
    ∧ (containerResolve pySys 3 optAQuery
        (containerResolve pySys 3 optAQuery noneSingletonSt).2).1 = .ok .vnone
    ∧ callsOf (containerResolve pySys 3 optAQuery
        (containerResolve pySys 3 optAQuery noneSingletonSt).2).2 1 = 2 :=
  ⟨rfl, rfl, rfl, rfl⟩

/-- C2, amended.  For a singleton factory whose produce succeeds with a
value other than `None`, the first resolve memoizes that value; the
second resolve returns the identical memoized value and leaves the state
untouched (the wrapped factory is not re-invoked and the body-invocation
count remains 1); and — the retry conjuncts, at the concrete scenario
`needsPSt` — a first attempt that fails (parameter `P` unresolvable)
does not memoize, the body never runs, and once `P` is registered a
later resolve succeeds with a single body invocation.  (For a produce
that successfully returns `None`, none of this holds: see the
counterexample of this claim.) -/
theorem singleton_memoizes_nonnone {κ : Type} [DecidableEq κ] (sys : ClassSys κ)
    (st : CState κ) (T : κ) (fs : FactorySpec κ) (f : Nat)
    (hparams : fs.params = [])
    (hret : fs.retType = .cls T)
    (hnn : fs.body [] [] ≠ .vnone)
    (hvc : valueClass sys (fs.body [] []) = T)
    (hT : T ∈ sys.mro T)
    (hocc : occCount (.classT T) (constTerminals sys T) = 1)
    (hempty : st.index (.classT T) = []) :
    ((containerResolve sys (f + 1) (.cls T) (registerSingletonFactory sys st fs)).1
        = .ok (fs.body [] []))
    ∧ memoOf (containerResolve sys (f + 1) (.cls T) (registerSingletonFactory sys st fs)).2
        st.nprovs = fs.body [] []
    ∧ callsOf (containerResolve sys (f + 1) (.cls T) (registerSingletonFactory sys st fs)).2
        st.nprovs = 1
    ∧ containerResolve sys (f + 1) (.cls T)
        (containerResolve sys (f + 1) (.cls T) (registerSingletonFactory sys st fs)).2
      = (.ok (fs.body [] []),
         (containerResolve sys (f + 1) (.cls T) (registerSingletonFactory sys st fs)).2)
    ∧ (containerResolve pySys 3 (.cls .clsA) needsPSt).1 = .error ()
    ∧ callsOf (containerResolve pySys 3 (.cls .clsA) needsPSt).2 1 = 0
    ∧ memoOf (containerResolve pySys 3 (.cls .clsA) needsPSt).2 1 = .vnone
    ∧ (containerResolve pySys 3 (.cls .clsA)
        (registerInstance pySys (containerResolve pySys 3 (.cls .clsA) needsPSt).2
          (.obj .clsP 51 []))).1 = .ok retryA
    ∧ callsOf (containerResolve pySys 3 (.cls .clsA)
        (registerInstance pySys (containerResolve pySys 3 (.cls .clsA) needsPSt).2
          (.obj .clsP 51 []))).2 1 = 1 := by
  have htcv : typeCheckObject sys (.classT T) (fs.body [] []) = true :=
    typeCheckObject_true_of_mro sys (by rw [hvc]; exact hT)
  have hbucket : (registerSingletonFactory sys st fs).index (.classT T) = [st.nprovs] := by
    simp only [registerSingletonFactory, addProvider, addIndex_apply, provGetType, hret,
      pythonTypeToMeta, iteratePossibleTerminalTypes, hempty, List.nil_append]
    rw [show occCount (TermType.classT T) (((sys.mro T).dropLast).map .classT) = 1 from hocc]
    rfl
  have hprovpid : (registerSingletonFactory sys st fs).provs st.nprovs
      = some (newEntry (.singleton fs)) := by
    simp [registerSingletonFactory, addProvider]
  cases hbody : fs.body [] []
  case vnone => exact absurd hbody hnn
  all_goals
    rw [hbody] at htcv
    refine ⟨?_, ?_, ?_, ?_, rfl, rfl, rfl, rfl, rfl⟩ <;>
      simp [containerResolve, pythonTypeToMeta, resolveMetaSingleW, resolveSingleTermW,
        queryPids, hbucket, resolveTermGo, getInstanceDepth, hprovpid, newEntry, runFactory,
        getGuard, hparams, buildArgs, setMemo, setGuard, setProxy, bumpCalls, memoOf, callsOf,
        filterInstancesOfTerminalType, htcv, hbody]

/-- Witness for C2's amended statement: a singleton factory producing a
fixed (non-`None`) `A` instance, registered on a fresh container, is
invoked once across two resolves, both returning that instance. -/
theorem singleton_memoizes_nonnone_witness :
    ((containerResolve pySys 1 (.cls .clsA)
        (registerSingletonFactory pySys freshC
          { params := [], retType := .cls .clsA, body := fun _ _ => retryA })).1
      = .ok retryA)
    ∧ callsOf (containerResolve pySys 1 (.cls .clsA)
        (registerSingletonFactory pySys freshC
          { params := [], retType := .cls .clsA, body := fun _ _ => retryA })).2 1 = 1 := by
  have h := singleton_memoizes_nonnone pySys freshC .clsA
    { params := [], retType := .cls .clsA, body := fun _ _ => retryA } 0
    rfl rfl (by simp [retryA]) rfl (by decide) (by decide) (by decide)
  exact ⟨h.1, h.2.2.1⟩

/-! ## Claim C3 — union resolution order and failure -/

/-- C3.  Single-instance resolution of `Union[A, B]` tries the members
strictly left to right and returns the first success, catching the
resolution failure per member: with no provider under `A` and exactly one
const provider of an acceptable `B` instance, `resolve(Union[A, B])`
returns that instance; with no provider under either member, it raises
the not-resolvable error only after both members failed. -/
theorem union_left_to_right_first_success {κ : Type} [DecidableEq κ] (sys : ClassSys κ)
    (A B : κ) (f : Nat) :
    (∀ (st : CState κ) (pidB : Nat) (bv : Value κ),
        st.index (.classT A) = [] →
        st.index (.classT B) = [pidB] →
        st.provs pidB = some (newEntry (.const bv)) →
        typeCheckObject sys (.classT B) bv = true →
        (containerResolve sys (f + 1) (.unionE [.cls A, .cls B]) st).1 = .ok bv)
    ∧ (∀ st : CState κ,
        st.index (.classT A) = [] →
        st.index (.classT B) = [] →
        (containerResolve sys (f + 1) (.unionE [.cls A, .cls B]) st).1 = .error ()) := by
  constructor
  · intro st pidB bv hA hB hprov htc
    simp [containerResolve, pythonTypeToMeta, pythonTypeToMetaList, resolveMetaSingleW,
      resolveUnionGo, resolveSingleTermW, queryPids, hA, hB, resolveTermGo,
      getInstanceDepth_const sys hprov, filterInstances_of_typeCheck sys htc]
  · intro st hA hB
    simp [containerResolve, pythonTypeToMeta, pythonTypeToMetaList, resolveMetaSingleW,
      resolveUnionGo, resolveSingleTermW, queryPids, hA, hB, resolveTermGo]

/-- Witness for C3: on a fresh container with only `instB1` registered,
`resolve(Union[A, B])` returns `instB1`, and on the fresh container it
raises. -/
theorem union_left_to_right_first_success_witness :
    (containerResolve pySys 1 (.unionE [.cls .clsA, .cls .clsB]) onlyBSt).1 = .ok instB1
    ∧ (containerResolve pySys 1 (.unionE [.cls .clsA, .cls .clsB]) freshC).1 = .error () :=
  ⟨(union_left_to_right_first_success pySys .clsA .clsB 0).1 onlyBSt 1 instB1
      (by decide) (by decide) (by rfl) (by decide),
    (union_left_to_right_first_success pySys .clsA .clsB 0).2 freshC
      (by decide) (by decide)⟩

end Typedi
